import Mathlib

/-!
Verification of the stock-fantasy service core logic.

Shallow embedding of `src/model/llm/llm_service.py` and
`src/model/llm/app.py`:

* JSON values (`Json`) with a model of Python's `json.loads`
  (`json_loads`), restricted to integers, strings with simple escapes,
  booleans, null, arrays and objects — the fragment the service handles.
* `generate_stock_data` — the brace-extraction + parse step of
  `LLMService.generate_stock_data`.
* `generate_weekly_stocks` — the `/generate-weekly-stocks` handler as a
  pure function of the LLM-call outcome, the `yfinance` info lookup
  outcome, the clock, and the current cache.
* `get_daily_stock_data` — the `/daily-stock-data` handler as a pure
  function of the cache, the clock and the price-history fetch outcome.

External collaborators (LLM call, yfinance) are passed in as outcome
functions; Python exceptions are modelled with `Except`.
-/

/-- JSON values as handled by the service.  Numbers are modelled as
integers: the LLM contract only uses integer scores, and the number
grammar of the parser model below is restricted accordingly. -/
inductive Json where
  | null : Json
  | bool (b : Bool) : Json
  | num (n : Int) : Json
  | str (s : String) : Json
  | arr (elems : List Json) : Json
  | obj (members : List (String × Json)) : Json

/-- A Python dict as stored in the cache: an association list of
string keys.  Python dict keys are unique; the operations below use
first-match semantics, which agrees with dicts on every reachable
state. -/
abbrev Obj := List (String × Json)

/-- Python truthiness (`if not x`) on JSON-decoded values: `None`,
`False`, `0`, `""`, `[]` and `\x7b\x7d` are falsy. -/
def truthy : Json → Bool
  | .null => false
  | .bool b => b
  | .num n => n != 0
  | .str s => s != ""
  | .arr l => !l.isEmpty
  | .obj l => !l.isEmpty

/-- `d[k] = v` on a dict: replace the value of an existing key in
place, otherwise append the new pair. -/
def objSet : Obj → String → Json → Obj
  | [], k, v => [(k, v)]
  | (k', v') :: rest, k, v =>
      if k' = k then (k, v) :: rest else (k', v') :: objSet rest k v

/-! ## Model of `json.loads`

A fueled recursive-descent parser.  It covers the JSON fragment the
service actually produces and consumes; on inputs outside that
fragment (floats, `\u` escapes) it fails where `json.loads` may
succeed, which is irrelevant to the claims (they only evaluate the
parser on concrete in-fragment inputs, or reason about the extraction
step independently of the parse outcome). -/

/-- Skip JSON whitespace. -/
def skipWs : List Char → List Char
  | c :: rest =>
      if c == ' ' || c == '\t' || c == '\n' || c == '\r' then skipWs rest
      else c :: rest
  | [] => []

/-- Translate a string escape character; unsupported escapes fail. -/
def escChar (c : Char) : Option Char :=
  if c == 'n' then some '\n'
  else if c == 't' then some '\t'
  else if c == 'r' then some '\r'
  else if c == 'b' then some (Char.ofNat 8)
  else if c == 'f' then some (Char.ofNat 12)
  else if c == '"' || c == '\\' || c == '/' then some c
  else none

/-- Parse the remainder of a string literal, the opening quote already
consumed; returns the decoded string and the rest of the input. -/
def parseStringRest : List Char → Option (String × List Char)
  | [] => none
  | c :: rest =>
      if c = '"' then some ("", rest)
      else if c = '\\' then
        match rest with
        | [] => none
        | e :: rest2 =>
            match escChar e, parseStringRest rest2 with
            | some ec, some (s, r) => some (String.singleton ec ++ s, r)
            | _, _ => none
      else
        match parseStringRest rest with
        | some (s, r) => some (String.singleton c ++ s, r)
        | none => none

/-- Parse a run of decimal digits into a natural number. -/
def parseDigits (l : List Char) : Option (Nat × List Char) :=
  let ds := l.takeWhile (·.isDigit)
  let rest := l.dropWhile (·.isDigit)
  if ds.isEmpty then none
  else some (ds.foldl (fun n c => n * 10 + (c.toNat - 48)) 0, rest)

mutual

/-- Parse one JSON value, leading whitespace allowed. -/
def parseVal : Nat → List Char → Option (Json × List Char)
  | 0, _ => none
  | fuel + 1, s =>
    match skipWs s with
    | [] => none
    | c :: rest =>
        if c = 'n' then
          match rest with
          | 'u' :: 'l' :: 'l' :: r => some (.null, r)
          | _ => none
        else if c = 't' then
          match rest with
          | 'r' :: 'u' :: 'e' :: r => some (.bool true, r)
          | _ => none
        else if c = 'f' then
          match rest with
          | 'a' :: 'l' :: 's' :: 'e' :: r => some (.bool false, r)
          | _ => none
        else if c = '"' then
          match parseStringRest rest with
          | some (str, r) => some (.str str, r)
          | none => none
        else if c = '[' then
          match skipWs rest with
          | ']' :: r => some (.arr [], r)
          | r => match parseElems fuel r with
                 | some (l, r2) => some (.arr l, r2)
                 | none => none
        else if c = '\x7b' then
          match skipWs rest with
          | '\x7d' :: r => some (.obj [], r)
          | r => match parseMembers fuel r with
                 | some (l, r2) => some (.obj l, r2)
                 | none => none
        else if c = '-' then
          match parseDigits rest with
          | some (n, r) => some (.num (-(n : Int)), r)
          | none => none
        else
          match parseDigits (c :: rest) with
          | some (n, r) => some (.num (n : Int), r)
          | none => none

/-- Parse a non-empty comma-separated list of array elements and the
closing bracket. -/
def parseElems : Nat → List Char → Option (List Json × List Char)
  | 0, _ => none
  | fuel + 1, s =>
    match parseVal fuel s with
    | none => none
    | some (v, r) =>
        match skipWs r with
        | ',' :: r2 =>
            match parseElems fuel r2 with
            | some (l, r3) => some (v :: l, r3)
            | none => none
        | ']' :: r2 => some ([v], r2)
        | _ => none

/-- Parse a non-empty comma-separated list of object members and the
closing brace. -/
def parseMembers : Nat → List Char → Option (List (String × Json) × List Char)
  | 0, _ => none
  | fuel + 1, s =>
    match skipWs s with
    | '"' :: rest =>
        match parseStringRest rest with
        | none => none
        | some (k, r) =>
            match skipWs r with
            | ':' :: r2 =>
                match parseVal fuel r2 with
                | none => none
                | some (v, r3) =>
                    match skipWs r3 with
                    | ',' :: r4 =>
                        match parseMembers fuel r4 with
                        | some (l, r5) => some ((k, v) :: l, r5)
                        | none => none
                    | '\x7d' :: r4 => some ([(k, v)], r4)
                    | _ => none
            | _ => none
    | _ => none

end

/-- Model of `json.loads`: parse one value and require only trailing
whitespace after it. -/
def json_loads (s : String) : Option Json :=
  match parseVal (s.length + 1) s.toList with
  | some (v, r) => if (skipWs r).isEmpty then some v else none
  | none => none

/-! ## `LLMService.generate_stock_data` (llm_service.py lines 78-114)

The provider dispatch (`call_openai` / `call_gemini`) is an external
collaborator: its outcome is the `raw` argument, `Except.error` when
the call (or the `LLMService` constructor) raised. -/

/-- Index of the first occurrence of a character (`str.find`). -/
def strFind (s : String) (c : Char) : Option Nat :=
  s.toList.findIdx? (· == c)

/-- Index of the last occurrence of a character (`str.rfind`). -/
def strRfind (s : String) (c : Char) : Option Nat :=
  match (s.toList.reverse).findIdx? (· == c) with
  | some i => some (s.toList.length - 1 - i)
  | none => none

/-- Python slice `s[a:b]` (with `0 ≤ a ≤ b` clamping via `Nat`
truncated subtraction, matching Python's empty result when `b ≤ a`). -/
def strSlice (s : String) (a b : Nat) : String :=
  String.mk ((s.toList.drop a).take (b - a))

/-- The one error message `generate_stock_data` raises on any
`json.JSONDecodeError`, whether the brace pair was missing or the
extracted substring failed to parse. -/
def decodeErrMsg : String := "Failed to decode JSON from LLM response."

/-- `LLMService.generate_stock_data`: find the first brace and the
last closing brace, slice, and parse.  A missing brace raises a
`JSONDecodeError` (line 100), a failed `json.loads` raises one too;
both are caught and re-raised as the same generic exception
(line 114). -/
def generate_stock_data (raw : Except String String) : Except String Json :=
  match raw with
  | .error e => .error e
  | .ok s =>
      match strFind s '\x7b', strRfind s '\x7d' with
      | some start, some rlast =>
          match json_loads (strSlice s start (rlast + 1)) with
          | some j => .ok j
          | none => .error decodeErrMsg
      | _, _ => .error decodeErrMsg

/-! ## `app.py`: the cache and the two endpoint handlers -/

/-- The process-wide mutable record `weekly_stock_data`
(app.py line 13).  `last_updated` is `none` at process start (Python
`None`); a timestamp is an integer number of seconds. -/
structure WeeklyCache where
  last_updated : Option Int
  data : List Obj

/-- Initial cache state: `\x7b"last_updated": None, "data": []\x7d`. -/
def initialCache : WeeklyCache := { last_updated := none, data := [] }

/-- The body returned by `/generate-weekly-stocks`: the success dict
with its count, or the `\x7b"error": ...\x7d` dict. -/
inductive GenResponse where
  | success (count : Nat) : GenResponse
  | failure (msg : String) : GenResponse

/-- Python `for stock in stock_list` over a decoded JSON value: lists
iterate elements, strings iterate one-character strings, dicts iterate
their keys, and everything else raises `TypeError`. -/
def pyIter : Json → Except String (List Json)
  | .arr l => .ok l
  | .str s => .ok (s.toList.map (fun c => Json.str (String.singleton c)))
  | .obj kvs => .ok (kvs.map (fun kv => Json.str kv.1))
  | _ => .error "TypeError"

/-- `response_data.get("stocks", [])` followed by entering the `for`
loop: `.get` on a non-dict raises `AttributeError` (unreachable here,
since the parsed extract always starts with a brace and is therefore
an object). -/
def getStockList : Json → Except String (List Json)
  | .obj kvs => pyIter ((kvs.lookup "stocks").getD (.arr []))
  | _ => .error "AttributeError"

/-- The enrichment loop of `generate_weekly_stocks` (app.py lines
37-50).  `info tv` is the outcome of `yf.Ticker(tv).info.get
('longName')`: `Except.error` if `yf` raised, `Except.ok none` if the
info dict has no `longName` key, `Except.ok (some v)` otherwise.
Entries whose `ticker` is absent or falsy are skipped; a non-dict
entry raises `AttributeError` at `stock.get` (outside the inner
`try`), aborting the whole run. -/
def enrichLoop (info : Json → Except String (Option Json)) :
    List Json → Except String (List Obj)
  | [] => .ok []
  | .obj kvs :: rest =>
      match kvs.lookup "ticker" with
      | none => enrichLoop info rest
      | some tv =>
          if truthy tv then
            let nm := match info tv with
              | .ok (some v) => v
              | .ok none => tv
              | .error _ => tv
            match enrichLoop info rest with
            | .ok l => .ok (objSet kvs "name" nm :: l)
            | .error e => .error e
          else enrichLoop info rest
  | _ :: _ => .error "AttributeError"

/-- The `/generate-weekly-stocks` handler (app.py lines 23-59) as a
pure function.  `llm` is the outcome of constructing `LLMService` and
calling the provider (an `Except.error` covers a bad provider name, a
missing API key and a network failure alike); `now` is
`datetime.now()` at the assignment on line 53.  Returns the new cache
value together with the response body; every exception lands in the
`except` on line 58, which returns the error body without having
touched the cache. -/
def generate_weekly_stocks (llm : Except String String)
    (info : Json → Except String (Option Json)) (now : Int)
    (cache : WeeklyCache) : WeeklyCache × GenResponse :=
  match generate_stock_data llm with
  | .error e => (cache, .failure ("An error occurred: " ++ e))
  | .ok j =>
      match getStockList j with
      | .error e => (cache, .failure ("An error occurred: " ++ e))
      | .ok stock_list =>
          match enrichLoop info stock_list with
          | .error e => (cache, .failure ("An error occurred: " ++ e))
          | .ok enriched =>
              ({ last_updated := some now, data := enriched },
               .success enriched.length)

/-- One element of the `/daily-stock-data` response (app.py lines
88-96).  The `id` field `f"\x7bticker\x7d-\x7bnow.timestamp()\x7d"` is modelled as
the pair of its two constituents. -/
structure MergedView where
  id : Json × Int
  ticker : Json
  name : Option Json
  buy_sell_score : Json
  reason : Json
  price : ℚ
  changePct : ℚ

/-- Round-half-to-even to an integer, the tie rule of Python's
`round`.  Prices are modelled as exact rationals. -/
def roundHalfEven (q : ℚ) : Int :=
  let f := ⌊q⌋
  if q - f < 1 / 2 then f
  else if 1 / 2 < q - f then f + 1
  else if f % 2 = 0 then f else f + 1

/-- `round(x, 2)`. -/
def round2 (q : ℚ) : ℚ := (roundHalfEven (q * 100) : ℚ) / 100

/-- Seven days, in seconds: `timedelta(days=7)`. -/
def sevenDays : Int := 7 * 86400

/-- The stale-cache error body of `/daily-stock-data` (line 71). -/
def staleMsg : String :=
  "Weekly stock data is missing or outdated. Please trigger the /generate-weekly-stocks endpoint manually."

/-- The `/daily-stock-data` response: the stale-cache error dict, the
merged list, or an unhandled `TypeError` (`now - None` on line 70,
reachable only from the unreachable state of a non-empty `data` with
`last_updated = None`). -/
inductive DailyResult where
  | failure (msg : String) : DailyResult
  | ok (views : List MergedView) : DailyResult
  | crash : DailyResult

/-- The per-ticker body of the merge loop (app.py lines 75-99).
`fetch tv` is the outcome of `yf.Ticker(tv).history(period="2d")
["Close"]`: `Except.error` if `yf` raised, otherwise the ordered list
of closes.  Returns `none` when the `continue` on lines 77, 82 or 99
runs: ticker absent or falsy, fewer than 2 closes, fetch raised, or
`prev_close = 0` (a float `ZeroDivisionError`, caught on line 97). -/
def mergeStock (now : Int) (fetch : Json → Except String (List ℚ))
    (stock : Obj) : Option MergedView :=
  match stock.lookup "ticker" with
  | none => none
  | some tv =>
      if truthy tv then
        match fetch tv with
        | .error _ => none
        | .ok closes =>
            if closes.length < 2 then none
            else
              let last_close := closes.getLastD 0
              let prev_close := closes.dropLast.getLastD 0
              if prev_close = 0 then none
              else
                some { id := (tv, now)
                       ticker := tv
                       name := stock.lookup "name"
                       buy_sell_score := (stock.lookup "buy_sell_score").getD (.num 50)
                       reason := (stock.lookup "reason").getD (.str "")
                       price := round2 last_close
                       changePct := round2 ((last_close - prev_close) / prev_close * 100) }
      else none

/-- The `/daily-stock-data` handler (app.py lines 61-101) as a pure
function of the cache, the clock and the fetch outcomes.  The
staleness test is `not data or (now - last_updated) > timedelta
(days=7)`; the dict always holds the `last_updated` key, so the `.get`
default never applies and a `None` value reaches the subtraction. -/
def get_daily_stock_data (cache : WeeklyCache) (now : Int)
    (fetch : Json → Except String (List ℚ)) : DailyResult :=
  if cache.data.isEmpty then .failure staleMsg
  else
    match cache.last_updated with
    | none => .crash
    | some t =>
        if now - t > sevenDays then .failure staleMsg
        else .ok (cache.data.filterMap (mergeStock now fetch))

/-! ### Concrete fixtures used by witnesses -/

/-- A fetch outcome: ticker `AAA` yields a single close (a skip case),
every other ticker yields the two closes `[100, 105]`. -/
def wFetch : Json → Except String (List ℚ)
  | .str "AAA" => .ok [1]
  | _ => .ok [100, 105]

/-- A fresh two-entry cache. -/
def wCache : WeeklyCache :=
  { last_updated := some 0,
    data := [[("ticker", .str "AAA")],
             [("ticker", .str "BBB"), ("buy_sell_score", .num 88),
              ("reason", .str "great")]] }

/-- The merged view `wFetch` produces for the `BBB` entry of
`wCache`. -/
def vBBB : MergedView :=
  { id := (.str "BBB", 0), ticker := .str "BBB", name := none,
    buy_sell_score := .num 88, reason := .str "great",
    price := round2 (([100, 105] : List ℚ).getLastD 0),
    changePct := round2 ((([100, 105] : List ℚ).getLastD 0
        - ([100, 105] : List ℚ).dropLast.getLastD 0)
      / ([100, 105] : List ℚ).dropLast.getLastD 0 * 100) }

/-! ## Theorems -/

/-- Helper: a successful merge copies its fields from the cached entry
as the loop body writes them: the ticker is the entry's, the score and
reason fall back to `50` and `""` only when absent, the name is the
cached name. -/
theorem mergeStock_some_eq (now : Int) (fetch : Json → Except String (List ℚ))
    (s : Obj) (v : MergedView) (h : mergeStock now fetch s = some v) :
    s.lookup "ticker" = some v.ticker
    ∧ v.buy_sell_score = (s.lookup "buy_sell_score").getD (.num 50)
    ∧ v.reason = (s.lookup "reason").getD (.str "")
    ∧ v.name = s.lookup "name" := by
  rcases hl : s.lookup "ticker" with _ | tv
  · rw [mergeStock, hl] at h
    cases h
  · rw [mergeStock, hl] at h
    by_cases ht : truthy tv
    · simp only [ht, if_true] at h
      rcases hf : fetch tv with e | cs
      · rw [hf] at h
        cases h
      · rw [hf] at h
        by_cases hlen : cs.length < 2
        · simp only [if_pos hlen] at h
          cases h
        · simp only [if_neg hlen] at h
          by_cases hz : cs.dropLast.getLastD 0 = 0
          · simp only [if_pos hz] at h
            cases h
          · simp only [if_neg hz] at h
            injection h with h'
            rw [← h']
            exact ⟨rfl, rfl, rfl, rfl⟩
    · simp only [ht, if_false] at h
      cases h

/-- Helper: the only way `get_daily_stock_data` returns a merged list
is the fresh-cache branch, and that list is the `filterMap` of the
per-ticker merge over the cached entries, in cache order. -/
theorem get_daily_ok_inv (cache : WeeklyCache) (now : Int)
    (fetch : Json → Except String (List ℚ)) (views : List MergedView)
    (h : get_daily_stock_data cache now fetch = .ok views) :
    views = cache.data.filterMap (mergeStock now fetch) := by
  rw [get_daily_stock_data] at h
  by_cases hd : cache.data.isEmpty
  · simp only [if_pos hd] at h
    cases h
  · simp only [if_neg hd] at h
    rcases hlu : cache.last_updated with _ | t
    · rw [hlu] at h
      cases h
    · rw [hlu] at h
      by_cases hgt : now - t > sevenDays
      · simp only [if_pos hgt] at h
        cases h
      · simp only [if_neg hgt] at h
        injection h with h'
        exact h'.symm

/-- Helper: mapping a function over a `filterMap` yields a sublist of
any `filterMap` that is defined (compatibly) wherever the first one
is. -/
theorem map_filterMap_sublist {α β γ : Type} (sel : α → Option β)
    (out : β → γ) (alt : α → Option γ)
    (H : ∀ a b, sel a = some b → alt a = some (out b)) :
    ∀ l : List α, List.Sublist ((l.filterMap sel).map out) (l.filterMap alt)
  | [] => by simp
  | a :: l => by
    rcases hfa : sel a with _ | b
    · rw [List.filterMap_cons, hfa]
      rcases hha : alt a with _ | c
      · rw [List.filterMap_cons, hha]
        exact map_filterMap_sublist sel out alt H l
      · rw [List.filterMap_cons, hha]
        exact List.Sublist.cons c (map_filterMap_sublist sel out alt H l)
    · rw [List.filterMap_cons, hfa, List.filterMap_cons, H a b hfa,
        List.map_cons]
      exact List.Sublist.cons₂ (out b) (map_filterMap_sublist sel out alt H l)

/-- Helper: a string with no opening brace has `strFind = none`. -/
theorem strFind_eq_none_of_not_mem (s : String) (c : Char)
    (h : ∀ d ∈ s.toList, d ≠ c) : strFind s c = none := by
  unfold strFind
  rw [List.findIdx?_eq_none_iff]
  intro x hx
  simp [h x hx]

/-- C3: JSON extraction takes the substring from the first opening
brace through the last closing brace and parses it: on the noisy
concrete input it yields the object with key "stocks" and an empty
list; whenever the sliced substring parses, that parse is the result;
and an input containing no opening brace always produces an error,
never a value. -/
theorem extraction_slices_first_to_last_brace :
    (generate_stock_data (.ok "noise\x7b\"stocks\":[]\x7dmore noise")
        = .ok (.obj [("stocks", .arr [])]))
    ∧ (∀ (s : String) (start rlast : Nat) (v : Json),
        strFind s '\x7b' = some start → strRfind s '\x7d' = some rlast →
        json_loads (strSlice s start (rlast + 1)) = some v →
        generate_stock_data (.ok s) = .ok v)
    ∧ (∀ s : String, (∀ d ∈ s.toList, d ≠ '\x7b') →
        ∃ e, generate_stock_data (.ok s) = .error e) := by
  refine ⟨rfl, ?_, ?_⟩
  · intro s start rlast v hf hr hp
    simp only [generate_stock_data]
    rw [hf, hr]
    simp [hp]
  · intro s h
    refine ⟨decodeErrMsg, ?_⟩
    have hf : strFind s '\x7b' = none := strFind_eq_none_of_not_mem s '\x7b' h
    simp only [generate_stock_data]
    rw [hf]

/-- C3 witness: the universally quantified parts applied at the noisy
input and at a brace-free input. -/
theorem extraction_slices_first_to_last_brace_witness :
    generate_stock_data (.ok "noise\x7b\"stocks\":[]\x7dmore noise")
        = .ok (.obj [("stocks", .arr [])])
    ∧ (∃ e, generate_stock_data (.ok "abc") = .error e) :=
  ⟨extraction_slices_first_to_last_brace.2.1
      "noise\x7b\"stocks\":[]\x7dmore noise" 5 17 (.obj [("stocks", .arr [])])
      rfl rfl rfl,
   extraction_slices_first_to_last_brace.2.2 "abc" (by decide)⟩

/-- C9 counterexample: the no-brace input and the unparseable-extract
input produce literally the same error value, so the two failure modes
are not distinguishable by the caller, contrary to the claim. -/
theorem json_failure_modes_same_error_cex :
    generate_stock_data (.ok "abc") = .error decodeErrMsg
    ∧ generate_stock_data (.ok "\x7bx\x7d") = .error decodeErrMsg
    ∧ decodeErrMsg = "Failed to decode JSON from LLM response." :=
  ⟨rfl, rfl, rfl⟩

/-- C9 amended: internally the two failure modes raise
`json.JSONDecodeError` at different points and print different log
lines, but the catch-all converts both into the same generic exception
"Failed to decode JSON from LLM response.", so every parse-stage
failure surfaces to the caller with that one message. -/
theorem json_failure_modes_uniform_error (s e : String)
    (h : generate_stock_data (.ok s) = .error e) : e = decodeErrMsg := by
  simp only [generate_stock_data] at h
  split at h
  · split at h
    · simp at h
    · injection h with h'
      exact h'.symm
  · injection h with h'
    exact h'.symm

/-- C9 amended witness. -/
theorem json_failure_modes_uniform_error_witness :
    decodeErrMsg = decodeErrMsg :=
  json_failure_modes_uniform_error "abc" decodeErrMsg rfl

/-- C4: an entry without a `ticker` key contributes nothing to the
enriched list — the loop result on it is the loop result on the
remaining entries — and on the concrete input `[\x7b"score": 10\x7d]`
the enriched output is empty. -/
theorem missing_ticker_skipped :
    (∀ (info : Json → Except String (Option Json)) (kvs : Obj)
        (rest : List Json),
        kvs.lookup "ticker" = none →
        enrichLoop info (.obj kvs :: rest) = enrichLoop info rest)
    ∧ (∀ info, enrichLoop info [.obj [("score", .num 10)]] = .ok []) := by
  refine ⟨?_, fun info => rfl⟩
  intro info kvs rest h
  simp only [enrichLoop]
  rw [h]

/-- C4 witness: the skip equation applied at the concrete entry. -/
theorem missing_ticker_skipped_witness :
    enrichLoop (fun _ => .ok none) [.obj [("score", .num 10)]]
      = enrichLoop (fun _ => .ok none) [] :=
  missing_ticker_skipped.1 (fun _ => .ok none) [("score", .num 10)] [] rfl

/-- C5: when the name lookup for an entry's ticker raises, the entry
is still enriched, with `name` set to the ticker value itself, and the
rest of the batch is processed exactly as before — one bad lookup
neither aborts the run nor drops any other entry.  Concretely, a
lookup that always throws still yields the enriched `ZZZ` entry. -/
theorem lookup_failure_falls_back_to_ticker :
    (∀ (info : Json → Except String (Option Json)) (kvs : Obj)
        (rest : List Json) (tv : Json) (e : String),
        kvs.lookup "ticker" = some tv → truthy tv = true →
        info tv = .error e →
        enrichLoop info (.obj kvs :: rest)
          = (enrichLoop info rest).map (fun l => objSet kvs "name" tv :: l))
    ∧ (∀ e : String,
        enrichLoop (fun _ => .error e) [.obj [("ticker", .str "ZZZ")]]
          = .ok [[("ticker", .str "ZZZ"), ("name", .str "ZZZ")]]) := by
  refine ⟨?_, fun e => rfl⟩
  intro info kvs rest tv e hl ht hi
  simp only [enrichLoop]
  rw [hl]
  simp only [ht, if_true, hi]
  cases enrichLoop info rest <;> rfl

/-- C5 witness: the fallback equation applied at the `ZZZ` entry with
a throwing lookup. -/
theorem lookup_failure_falls_back_to_ticker_witness :
    enrichLoop (fun _ => .error "boom") [.obj [("ticker", .str "ZZZ")]]
      = (enrichLoop (fun _ => .error "boom") []).map
          (fun l => objSet [("ticker", .str "ZZZ")] "name" (.str "ZZZ") :: l) :=
  lookup_failure_falls_back_to_ticker.1 (fun _ => .error "boom")
    [("ticker", .str "ZZZ")] [] (.str "ZZZ") "boom" rfl rfl rfl

/-- C1: for every provider outcome, lookup behaviour, clock and prior
cache, `generate_weekly_stocks` either swaps in a wholly new cache
record (new timestamp, new enriched list) and reports a count equal to
that list's length, or reports an error and leaves the cache exactly
as it was — the post-state is never anything else. -/
theorem generate_atomic (llm : Except String String)
    (info : Json → Except String (Option Json)) (now : Int)
    (cache : WeeklyCache) :
    (∃ l : List Obj,
        generate_weekly_stocks llm info now cache
          = ({ last_updated := some now, data := l }, .success l.length))
    ∨ (∃ e : String,
        generate_weekly_stocks llm info now cache = (cache, .failure e)) := by
  rcases hg : generate_stock_data llm with e | j
  · exact Or.inr ⟨"An error occurred: " ++ e,
      by simp only [generate_weekly_stocks, hg]⟩
  · rcases hs : getStockList j with e | sl
    · exact Or.inr ⟨"An error occurred: " ++ e,
        by simp only [generate_weekly_stocks, hg, hs]⟩
    · rcases he : enrichLoop info sl with e | l
      · exact Or.inr ⟨"An error occurred: " ++ e,
          by simp only [generate_weekly_stocks, hg, hs, he]⟩
      · exact Or.inl ⟨l, by simp only [generate_weekly_stocks, hg, hs, he]⟩

/-- C2: `/daily-stock-data` returns the staleness error exactly when
the cached list is empty or more than 7 days have elapsed since
`last_updated` (under the cache invariant that a non-empty cache has a
timestamp); a cache 8 days old yields the error for any fetch
behaviour, one 6 days old proceeds to the merge; the handler never
writes to the cache (it is a pure function of it). -/
theorem staleness_error_iff :
    (∀ (cache : WeeklyCache) (now : Int)
        (fetch : Json → Except String (List ℚ)),
        (cache.data = [] ∨ ∃ t, cache.last_updated = some t) →
        (get_daily_stock_data cache now fetch = .failure staleMsg ↔
          (cache.data = []
            ∨ ∃ t, cache.last_updated = some t ∧ now - t > sevenDays)))
    ∧ (∀ fetch, get_daily_stock_data
          { last_updated := some 0, data := [[("ticker", .str "AAPL")]] }
          (8 * 86400) fetch = .failure staleMsg)
    ∧ (∀ fetch, ∃ views, get_daily_stock_data
          { last_updated := some 0, data := [[("ticker", .str "AAPL")]] }
          (6 * 86400) fetch = .ok views) := by
  refine ⟨?_, ?_, ?_⟩
  case refine_2 =>
    intro fetch
    norm_num [get_daily_stock_data, sevenDays]
  case refine_3 =>
    intro fetch
    exact ⟨List.filterMap (mergeStock (6 * 86400) fetch)
        [[("ticker", Json.str "AAPL")]],
      by norm_num [get_daily_stock_data, sevenDays]⟩
  intro cache now fetch h
  rw [get_daily_stock_data]
  by_cases hd : cache.data.isEmpty
  · simp [hd, List.isEmpty_iff.mp hd]
  · have hd' : cache.data ≠ [] := fun hc => hd (by simp [hc])
    rcases h with h | ⟨t, ht⟩
    · exact absurd h hd'
    · rw [if_neg hd, ht]
      by_cases hgt : now - t > sevenDays
      · simp only [if_pos hgt, hd', false_or, true_iff]
        exact ⟨t, rfl, hgt⟩
      · simp only [if_neg hgt, hd', false_or, false_iff]
        constructor
        · intro hc
          cases hc
        · rintro ⟨t', ht', hgt'⟩
          injection ht' with ht''
          exact (hgt (ht'' ▸ hgt')).elim

/-- C2 witness: the equivalence applied at the 8-day-old one-entry
cache. -/
theorem staleness_error_iff_witness :
    get_daily_stock_data
        { last_updated := some 0, data := [[("ticker", .str "AAPL")]] }
        (8 * 86400) (fun _ => .ok []) = .failure staleMsg ↔
      (([[("ticker", Json.str "AAPL")]] : List Obj) = []
        ∨ ∃ t : Int, (some 0 : Option Int) = some t
            ∧ 8 * 86400 - t > sevenDays) :=
  staleness_error_iff.1 _ _ _ (Or.inr ⟨0, rfl⟩)

/-- C6: whenever the fetch for an entry's ticker yields the two closes
`[prev, last]` with `prev ≠ 0`, the merged view carries
`price = round2 last` and `changePct = round2 ((last - prev) / prev *
100)` with the same round-half-to-even rule for both; concretely,
closes `[100, 105]` give `changePct = 5` and `price = 105`. -/
theorem merge_arithmetic :
    (∀ (now : Int) (fetch : Json → Except String (List ℚ)) (s : Obj)
        (tv : Json) (prev last : ℚ),
        s.lookup "ticker" = some tv → truthy tv = true →
        fetch tv = .ok [prev, last] → prev ≠ 0 →
        ∃ v, mergeStock now fetch s = some v
          ∧ v.price = round2 last
          ∧ v.changePct = round2 ((last - prev) / prev * 100))
    ∧ (∃ v, mergeStock 0 (fun _ => .ok [100, 105]) [("ticker", .str "A")]
          = some v ∧ v.changePct = 5 ∧ v.price = 105) := by
  constructor
  · intro now fetch s tv prev last hl ht hf hp
    rw [mergeStock, hl]
    simp only [ht, if_true, hf]
    norm_num
    exact ⟨_, ⟨hp, rfl⟩, rfl, rfl⟩
  · refine ⟨_, rfl, ?_, ?_⟩
    · show round2 (((105 : ℚ) - 100) / 100 * 100) = 5
      norm_num [round2, roundHalfEven]
    · show round2 (105 : ℚ) = 105
      norm_num [round2, roundHalfEven]

/-- C6 witness: the general statement applied at the concrete closes
`[100, 105]`. -/
theorem merge_arithmetic_witness :
    ∃ v, mergeStock 0 (fun _ => Except.ok [100, 105])
          [("ticker", Json.str "A")] = some v
      ∧ v.price = round2 105
      ∧ v.changePct = round2 ((105 - 100) / 100 * 100) :=
  merge_arithmetic.1 0 (fun _ => .ok [100, 105]) [("ticker", .str "A")]
    (.str "A") 100 105 rfl rfl rfl (by norm_num)

/-- C7: per-ticker failure in the merge is isolated: on a fresh cache
the result is exactly the in-order `filterMap` of the per-ticker
merge, an entry whose fetch raised or returned fewer than 2 closes
merges to `none` (silently omitted), and every entry that merges
successfully appears in the result; the whole operation never fails
off the staleness branch. -/
theorem per_ticker_isolation (cache : WeeklyCache) (t now : Int)
    (fetch : Json → Except String (List ℚ))
    (hne : cache.data ≠ []) (hlu : cache.last_updated = some t)
    (hfresh : ¬now - t > sevenDays) :
    get_daily_stock_data cache now fetch
      = .ok (cache.data.filterMap (mergeStock now fetch))
    ∧ (∀ (s : Obj) (tv : Json), s.lookup "ticker" = some tv →
        truthy tv = true →
        ((∃ e, fetch tv = .error e)
          ∨ (∃ cs, fetch tv = .ok cs ∧ cs.length < 2)) →
        mergeStock now fetch s = none)
    ∧ (∀ s ∈ cache.data, ∀ v, mergeStock now fetch s = some v →
        v ∈ cache.data.filterMap (mergeStock now fetch)) := by
  refine ⟨?_, ?_, ?_⟩
  · have hd : cache.data.isEmpty = false := by
      rcases hcd : cache.data with _ | ⟨a, l⟩
      · exact absurd hcd hne
      · rfl
    rw [get_daily_stock_data, hd, hlu]
    simp only [Bool.false_eq_true, if_false, if_neg hfresh]
  · intro s tv hl htv hbad
    rw [mergeStock, hl]
    simp only [htv, if_true]
    rcases hbad with ⟨e, hf⟩ | ⟨cs, hf, hlen⟩
    · rw [hf]
    · rw [hf]
      simp [hlen]
  · intro s hs v hv
    exact List.mem_filterMap.mpr ⟨s, hs, hv⟩

/-- C7 witness: the two-entry cache in which `AAA` fetches one close
and is dropped while `BBB` merges. -/
theorem per_ticker_isolation_witness :
    get_daily_stock_data wCache 0 wFetch
      = .ok (wCache.data.filterMap (mergeStock 0 wFetch)) :=
  (per_ticker_isolation wCache 0 0 wFetch
      (List.cons_ne_nil _ _) rfl (by decide)).1

/-- C8: the tickers of the merged result are an order-preserving
subsequence of the cached entries' tickers, for every cache state and
every fetch outcome that reaches the merge. -/
theorem merge_order_matches_cache (cache : WeeklyCache) (now : Int)
    (fetch : Json → Except String (List ℚ)) (views : List MergedView)
    (h : get_daily_stock_data cache now fetch = .ok views) :
    List.Sublist (views.map MergedView.ticker)
      (cache.data.filterMap (fun s => s.lookup "ticker")) := by
  rw [get_daily_ok_inv cache now fetch views h]
  exact map_filterMap_sublist (mergeStock now fetch) MergedView.ticker
    (fun s => s.lookup "ticker")
    (fun s v hv => (mergeStock_some_eq now fetch s v hv).1) cache.data

/-- C8 witness: the ordering property applied at the two-entry
cache. -/
theorem merge_order_matches_cache_witness :
    List.Sublist
      ((wCache.data.filterMap (mergeStock 0 wFetch)).map MergedView.ticker)
      (wCache.data.filterMap (fun s => s.lookup "ticker")) :=
  merge_order_matches_cache wCache 0 wFetch _ rfl

/-- C10: every merged view served by `/daily-stock-data` carries the
cached entry's `buy_sell_score` (defaulting to `50` when the key is
absent) and its `reason` (defaulting to `""` when absent); present
values are copied unchanged, and the key the code reads is
`buy_sell_score`. -/
theorem served_scores_and_reasons_default (cache : WeeklyCache)
    (now : Int) (fetch : Json → Except String (List ℚ))
    (views : List MergedView) (v : MergedView)
    (h : get_daily_stock_data cache now fetch = .ok views)
    (hv : v ∈ views) :
    ∃ s ∈ cache.data,
      v.buy_sell_score = (s.lookup "buy_sell_score").getD (.num 50)
      ∧ v.reason = (s.lookup "reason").getD (.str "") := by
  rw [get_daily_ok_inv cache now fetch views h] at hv
  rcases List.mem_filterMap.mp hv with ⟨s, hs, hsv⟩
  rcases mergeStock_some_eq now fetch s v hsv with ⟨-, h1, h2, -⟩
  exact ⟨s, hs, h1, h2⟩

/-- C10 witness: the `BBB` view carries the cached score `88` and the
cached reason. -/
theorem served_scores_and_reasons_default_witness :
    ∃ s ∈ wCache.data,
      vBBB.buy_sell_score = (s.lookup "buy_sell_score").getD (.num 50)
      ∧ vBBB.reason = (s.lookup "reason").getD (.str "") :=
  served_scores_and_reasons_default wCache 0 wFetch
    (wCache.data.filterMap (mergeStock 0 wFetch)) vBBB rfl
    (by rw [show wCache.data.filterMap (mergeStock 0 wFetch) = [vBBB] from rfl]
        exact List.mem_singleton.mpr rfl)
